import Mathlib

/-!
Verification of the botcoin trading bot (Go) against its specification.

The Go sources are shallowly embedded: `float64` values are modelled as `ℚ`
(the idealized exact arithmetic of the computations), Go strings as `String`,
pointers that may be `nil` as `Option`, the `map[string]*TradingProcess` as an
association list, and the external REST gateway (position lookup, order
placement, order cancellation) together with `strconv.ParseFloat` as an
environment of oracle functions, matching the spec's treatment of the Order
Gateway as an external collaborator.  Fallible external calls return `Option`
/ `Bool` results.  Besides the successor state, the embedding of the order
update handler also records the trace of gateway calls it issues, so that
ordering claims (cancel before place) and absence-of-call claims are provable.
-/

namespace Botcoin

/-- A configured buy level of a trading process
(`BuyOrder`, src/unnamed/part_001 lines 36-40).  `OrderId` is the exchange
order identifier, empty until the order is placed. -/
structure BuyOrder where
  OrderId : String
  CoinPrice : ℚ
  OrderAmount : ℚ
deriving DecidableEq, Repr

/-- The single open sell order of a trading process
(`SellOrder`, src/unnamed/part_001 lines 42-46). -/
structure SellOrder where
  OrderId : String
  CoinPrice : ℚ
  OrderAmount : ℚ
deriving DecidableEq, Repr

/-- Per-symbol orchestrator state (`TradingProcess`, src/unnamed/part_001
lines 15-22).  The Go field `SellOrder *SellOrder` is a nullable pointer,
modelled as `Option`; the mutex and the `alreadyInitialized` flag carry no
event-handling state and are not part of the embedding. -/
structure TradingProcess where
  Symbol : String
  SellTargetPercent : ℚ
  BuyOrders : List BuyOrder
  SellOrder : Option Botcoin.SellOrder
deriving DecidableEq, Repr

/-- `(*TradingProcess).OrderWithIdExists` (src/unnamed/part_001 lines 24-34).
Faithful to the source: the sell-order comparison sits INSIDE the loop over
`BuyOrders`, so an empty buy-order list short-circuits it. -/
def TradingProcess.OrderWithIdExists (tp : TradingProcess) (orderId : String) : Bool :=
  tp.BuyOrders.any fun buyOrder =>
    buyOrder.OrderId == orderId ||
      (match tp.SellOrder with
       | some so => so.OrderId == orderId
       | none => false)

/-- The fields of a streamed order-update record (`api.Order`) that
`handleSingleOrderUpdate` reads; the remaining fields of the Go struct are
never consulted by the handler. -/
structure Order where
  InstId : String
  OrderId : String
  Price : String
  Status : String
  Side : String
deriving DecidableEq, Repr

/-- The fields of `api.Position` that `handleSingleOrderUpdate` reads
(decimal strings, as delivered by the exchange). -/
structure Position where
  OpenPriceAvg : String
  Total : String
deriving DecidableEq, Repr

/-- External collaborators of the orchestrator: `strconv.ParseFloat` and
the REST Order Gateway (`api.Client`).  `none` / `false` model the error
returns of the corresponding Go calls. -/
structure Env where
  parseFloat : String → Option ℚ
  getPosition : String → Option Position
  cancelOrder : String → String → Bool
  placeLimitOrder : String → String → ℚ → ℚ → Option String

/-- A gateway call issued during event handling, recorded in order. -/
inductive GatewayCall where
  | getPosition (symbol : String)
  | cancelOrder (symbol orderId : String)
  | placeLimitOrder (symbol side : String) (price size : ℚ)
deriving DecidableEq, Repr

/-- The bot's `tradingProcesses map[string]*TradingProcess` field,
modelled as an association list keyed by symbol. -/
structure BotState where
  tradingProcesses : List (String × TradingProcess)
deriving DecidableEq, Repr

/-- Go map read `m[k]` on the trading-process map. -/
def mapLookup (m : List (String × TradingProcess)) (k : String) : Option TradingProcess :=
  match m with
  | [] => none
  | (k0, v) :: rest => if k0 = k then some v else mapLookup rest k

/-- Go map write `m[k] = v` (replaces the entry when present, appends it
otherwise). -/
def mapSet (m : List (String × TradingProcess)) (k : String) (v : TradingProcess) :
    List (String × TradingProcess) :=
  match m with
  | [] => [(k, v)]
  | (k0, v0) :: rest => if k0 = k then (k, v) :: rest else (k0, v0) :: mapSet rest k v

/-- Go map `delete(m, k)`. -/
def mapErase (m : List (String × TradingProcess)) (k : String) :
    List (String × TradingProcess) :=
  match m with
  | [] => []
  | (k0, v0) :: rest => if k0 = k then mapErase rest k else (k0, v0) :: mapErase rest k

/-- Tail of the buy-fill branch of `handleSingleOrderUpdate`
(src/unnamed/part_001 lines 240-273): parse the position's average entry
price and total size, compute the sell price from the configured target
percentage, place the sell order, and on success store the new `SellOrder`
on the process.  Every early `return` of the Go code yields the unchanged
bot state. -/
def handleBuyFillPlacement (env : Env) (b : BotState) (order : Order)
    (process : TradingProcess) (position : Position) (calls : List GatewayCall) :
    BotState × List GatewayCall :=
  match env.parseFloat position.OpenPriceAvg with
  | none => (b, calls)
  | some avgPrice =>
    match env.parseFloat position.Total with
    | none => (b, calls)
    | some size =>
      let sellPrice := avgPrice * (1 + process.SellTargetPercent / 100)
      let calls2 := calls ++ [GatewayCall.placeLimitOrder order.InstId "sell" sellPrice size]
      match env.placeLimitOrder order.InstId "sell" sellPrice size with
      | none => (b, calls2)
      | some sellOrderId =>
        let sellOrder : SellOrder :=
          { OrderId := sellOrderId, CoinPrice := sellPrice, OrderAmount := size }
        ({ tradingProcesses :=
            mapSet b.tradingProcesses order.InstId { process with SellOrder := some sellOrder } },
         calls2)

/-- `(*Bot).handleSingleOrderUpdate` (src/unnamed/part_001 lines 200-283),
returning the successor bot state together with the trace of gateway calls.
The Go function's two trailing `if` statements test mutually exclusive
sides (`"buy"` vs `"sell"`), so they are rendered as an `if`/`else if`.
The 3-second settle sleep has no effect on state and is not modelled. -/
def handleSingleOrderUpdateT (env : Env) (b : BotState) (order : Order) :
    BotState × List GatewayCall :=
  match mapLookup b.tradingProcesses order.InstId with
  | none => (b, [])
  | some process =>
    match env.parseFloat order.Price with
    | none => (b, [])
    | some _price =>
      if process.OrderWithIdExists order.OrderId then
        if order.Status = "filled" ∧ order.Side = "buy" then
          match env.getPosition order.InstId with
          | none => (b, [GatewayCall.getPosition order.InstId])
          | some position =>
            match process.SellOrder with
            | some previousSellOrder =>
              let calls :=
                [GatewayCall.getPosition order.InstId,
                 GatewayCall.cancelOrder order.InstId previousSellOrder.OrderId]
              if env.cancelOrder order.InstId previousSellOrder.OrderId then
                handleBuyFillPlacement env b order process position calls
              else (b, calls)
            | none =>
              handleBuyFillPlacement env b order process position
                [GatewayCall.getPosition order.InstId]
        else if order.Status = "filled" ∧ order.Side = "sell" then
          ({ tradingProcesses := mapErase b.tradingProcesses order.InstId }, [])
        else (b, [])
      else (b, [])

/-- State component of `handleSingleOrderUpdate`. -/
def handleSingleOrderUpdate (env : Env) (b : BotState) (order : Order) : BotState :=
  (handleSingleOrderUpdateT env b order).1

theorem handleSingleOrderUpdate_eq_fst (env : Env) (b : BotState) (order : Order) :
    handleSingleOrderUpdate env b order = (handleSingleOrderUpdateT env b order).1 := rfl

/-- Loop body of `(*Bot).placeBuyOrders` (src/unnamed/part_001 lines
165-182), acting on the `BuyOrders` slice.  Faithful to the source: a
non-empty `OrderId` is only logged, the order is placed again and the
identifier is overwritten; a placement error returns immediately, keeping
identifiers already assigned on earlier iterations.  The `Bool` is `true`
iff the Go function returned without error. -/
def placeBuyOrdersList (env : Env) (symbol : String) :
    List BuyOrder → List BuyOrder × Bool
  | [] => ([], true)
  | buyOrder :: rest =>
    let price := buyOrder.CoinPrice
    let size := buyOrder.OrderAmount / price
    match env.placeLimitOrder symbol "buy" price size with
    | none => (buyOrder :: rest, false)
    | some orderId =>
      let updated := { buyOrder with OrderId := orderId }
      let result := placeBuyOrdersList env symbol rest
      (updated :: result.1, result.2)

/-- `(*Bot).placeBuyOrders` (src/unnamed/part_001 lines 161-185) restricted
to its effect on the given trading process. -/
def placeBuyOrders (env : Env) (symbol : String) (process : TradingProcess) :
    TradingProcess × Bool :=
  let result := placeBuyOrdersList env symbol process.BuyOrders
  ({ process with BuyOrders := result.1 }, result.2)

/-- Number of sell orders recorded by a trading process (the Go field is a
single nullable pointer). -/
def sellOrderCount (tp : TradingProcess) : ℕ :=
  match tp.SellOrder with
  | some _ => 1
  | none => 0

/-- Price string that `(*Client).PlaceLimitOrder` puts on the wire
(src/api/client.go line 255): `strconv.FormatFloat(price, 'f', 1, 64)`
rounds the price to one decimal digit, the instrument's price precision.
Modelled over the idealized exact values; the inputs considered are never
at a rounding tie. -/
def formatPriceDec1 (p : ℚ) : ℚ :=
  ((round (p * 10) : ℤ) : ℚ) / 10

/-! ### Streaming session (src/api/websocket.go)

The claims about the session concern `Close` / `closeConnection` and the
entry of `reconnect`.  The session state below keeps the fields those
functions touch: the transport pointer and its closed status, the
`isConnected` flag, whether the `done` channel has been closed, and the
`reconnectInProgress` guard. -/

/-- The `api.WebsocketClient` fields read or written by `Close`,
`closeConnection` and the `reconnect` guard.  `connPresent` models
`conn != nil`; `connClosed` records that the transport was already closed
(a second transport close returns an error in Go); `doneClosed` records
that the `done` channel has been closed (closing it again panics in Go). -/
structure WebsocketClient where
  connPresent : Bool
  connClosed : Bool
  isConnected : Bool
  doneClosed : Bool
  reconnectInProgress : Bool
deriving DecidableEq, Repr

/-- `(*WebsocketClient).closeConnection` (src/api/websocket.go lines
272-280): under the mutex, if a transport exists, clear `isConnected` and
close the transport, returning its error value; the result `Bool` is `true`
iff a non-nil error was returned (Go's `net.Conn.Close` errors when the
connection was already closed). -/
def closeConnection (c : WebsocketClient) : WebsocketClient × Bool :=
  if c.connPresent then
    ({ c with isConnected := false, connClosed := true }, c.connClosed)
  else (c, false)

/-- `(*WebsocketClient).Close` (src/api/websocket.go lines 355-361):
`close(c.done)` under the mutex, then `closeConnection`.  In Go, `close`
of an already-closed channel panics at runtime; the panic is modelled as
`Except.error ()`. -/
def WebsocketClient.Close (c : WebsocketClient) :
    Except Unit (WebsocketClient × Bool) :=
  if c.doneClosed then Except.error ()
  else
    let c1 : WebsocketClient := { c with doneClosed := true }
    Except.ok (closeConnection c1)

/-! ### The reconnect in-flight guard (src/api/websocket.go lines 229-237)

`reconnect` begins with

  `if c.reconnectInProgress { return }`          -- read WITHOUT the mutex
  `c.mu.Lock(); c.reconnectInProgress = true; c.mu.Unlock()`

Concurrent callers (keepAlive, monitorReceived, readLoop) are modelled as
threads that interleave at statement granularity: the unsynchronized flag
read is one atomic step, and the mutex-protected flag store is another.
A thread whose read sees `true` returns (`suppressed`); a thread whose
store completes is inside the reconnection body (`inBody`). -/

/-- Program counter of one caller of `reconnect`. -/
inductive ReconnectPc where
  | notStarted
  | passedCheck
  | inBody
  | suppressed
deriving DecidableEq, Repr

/-- Shared guard flag plus the program counter of each concurrent caller of
`reconnect`. -/
structure GuardState where
  reconnectInProgress : Bool
  threads : List ReconnectPc
deriving DecidableEq, Repr

/-- One atomic step of thread `t` through the `reconnect` entry:
from `notStarted`, perform the unsynchronized read of
`reconnectInProgress` (line 230) and either return (`suppressed`) or
proceed; from `passedCheck`, perform the mutex-protected store
`reconnectInProgress = true` (lines 235-237) and enter the body. -/
def guardStep (s : GuardState) (t : ℕ) : GuardState :=
  match s.threads.get? t with
  | none => s
  | some pc =>
    match pc with
    | ReconnectPc.notStarted =>
      if s.reconnectInProgress then
        { s with threads := s.threads.set t ReconnectPc.suppressed }
      else
        { s with threads := s.threads.set t ReconnectPc.passedCheck }
    | ReconnectPc.passedCheck =>
      { reconnectInProgress := true, threads := s.threads.set t ReconnectPc.inBody }
    | ReconnectPc.inBody => s
    | ReconnectPc.suppressed => s

/-- Run a schedule (a list of thread indices, each executing its next
atomic step). -/
def guardRun (s : GuardState) : List ℕ → GuardState
  | [] => s
  | t :: ts => guardRun (guardStep s t) ts

/-- Number of callers currently executing the reconnection body. -/
def inBodyCount (s : GuardState) : ℕ :=
  (s.threads.filter fun pc => pc == ReconnectPc.inBody).length

/-! ### Helper lemmas about the map embedding -/

theorem mapLookup_mapSet_self (m : List (String × TradingProcess)) (k : String)
    (v : TradingProcess) : mapLookup (mapSet m k v) k = some v := by
  induction m with
  | nil => simp [mapSet, mapLookup]
  | cons hd tl ih =>
    obtain ⟨k0, v0⟩ := hd
    by_cases h0 : k0 = k <;> simp [mapSet, mapLookup, h0, ih]

theorem mapLookup_mapSet_ne (m : List (String × TradingProcess)) (k x : String)
    (v : TradingProcess) (hx : x ≠ k) :
    mapLookup (mapSet m k v) x = mapLookup m x := by
  have hkx : ¬ k = x := fun h => hx h.symm
  induction m with
  | nil => simp [mapSet, mapLookup, hkx]
  | cons hd tl ih =>
    obtain ⟨k0, v0⟩ := hd
    by_cases h0 : k0 = k
    · simp [mapSet, mapLookup, h0, hkx]
    · by_cases h1 : k0 = x <;> simp [mapSet, mapLookup, h0, h1, ih, hx]

theorem mapLookup_mapErase_self (m : List (String × TradingProcess)) (k : String) :
    mapLookup (mapErase m k) k = none := by
  induction m with
  | nil => simp [mapErase, mapLookup]
  | cons hd tl ih =>
    obtain ⟨k0, v0⟩ := hd
    by_cases h0 : k0 = k <;> simp [mapErase, mapLookup, h0, ih]

theorem mapLookup_mapErase_ne (m : List (String × TradingProcess)) (k x : String)
    (hx : x ≠ k) :
    mapLookup (mapErase m k) x = mapLookup m x := by
  have hkx : ¬ k = x := fun h => hx h.symm
  induction m with
  | nil => simp [mapErase, mapLookup]
  | cons hd tl ih =>
    obtain ⟨k0, v0⟩ := hd
    by_cases h0 : k0 = k
    · simp [mapErase, mapLookup, h0, hkx, ih]
    · by_cases h1 : k0 = x <;> simp [mapErase, mapLookup, h0, h1, ih, hx]

/-! ### Helper lemmas about the order-update handler -/

/-- A process that answers `true` to `OrderWithIdExists` has a non-empty
buy-order list (the sell-order comparison only runs inside the loop over
`BuyOrders`). -/
theorem buyOrders_ne_nil_of_orderWithIdExists (tp : TradingProcess) (oid : String)
    (h : tp.OrderWithIdExists oid = true) : tp.BuyOrders ≠ [] := by
  intro hnil
  unfold TradingProcess.OrderWithIdExists at h
  rw [hnil] at h
  simp at h

/-- If the buy-order list is non-empty, the current sell order's identifier
is recognized by `OrderWithIdExists`. -/
theorem orderWithIdExists_of_sellMatch (tp : TradingProcess) (so : SellOrder)
    (hne : tp.BuyOrders ≠ []) (hso : tp.SellOrder = some so) :
    tp.OrderWithIdExists so.OrderId = true := by
  unfold TradingProcess.OrderWithIdExists
  cases hb : tp.BuyOrders with
  | nil => exact absurd hb hne
  | cons bo rest => simp [hso]

/-- Exhaustive shape of a handler step: it leaves the state unchanged,
erases the event's symbol, or stores a new sell order on the (recognized)
process at the event's symbol. -/
theorem handleSingleOrderUpdate_cases (env : Env) (b : BotState) (o : Order) :
    handleSingleOrderUpdate env b o = b ∨
    handleSingleOrderUpdate env b o =
      { tradingProcesses := mapErase b.tradingProcesses o.InstId } ∨
    ∃ process sellOrder, mapLookup b.tradingProcesses o.InstId = some process ∧
      process.OrderWithIdExists o.OrderId = true ∧
      handleSingleOrderUpdate env b o =
        { tradingProcesses :=
            mapSet b.tradingProcesses o.InstId { process with SellOrder := some sellOrder } } := by
  unfold handleSingleOrderUpdate handleSingleOrderUpdateT
  rcases hproc : mapLookup b.tradingProcesses o.InstId with _ | process
  · exact Or.inl rfl
  simp only
  rcases hp : env.parseFloat o.Price with _ | p
  · exact Or.inl rfl
  simp only
  by_cases hex : process.OrderWithIdExists o.OrderId
  · rw [if_pos hex]
    by_cases hbuy : o.Status = "filled" ∧ o.Side = "buy"
    · rw [if_pos hbuy]
      rcases hpos : env.getPosition o.InstId with _ | position
      · exact Or.inl rfl
      simp only
      have hplace : ∀ calls,
          (handleBuyFillPlacement env b o process position calls).1 = b ∨
          ∃ sellOrder,
            (handleBuyFillPlacement env b o process position calls).1 =
              { tradingProcesses :=
                  mapSet b.tradingProcesses o.InstId
                    { process with SellOrder := some sellOrder } } := by
        intro calls
        unfold handleBuyFillPlacement
        rcases env.parseFloat position.OpenPriceAvg with _ | avg
        · exact Or.inl rfl
        simp only
        rcases env.parseFloat position.Total with _ | size
        · exact Or.inl rfl
        simp only
        rcases env.placeLimitOrder o.InstId "sell"
            (avg * (1 + process.SellTargetPercent / 100)) size with _ | sid
        · exact Or.inl rfl
        exact Or.inr ⟨_, rfl⟩
      rcases hprev : process.SellOrder with _ | prev
      · rcases hplace [GatewayCall.getPosition o.InstId] with h | ⟨so, h⟩
        · exact Or.inl h
        · exact Or.inr (Or.inr ⟨process, so, rfl, hex, h⟩)
      · simp only
        by_cases hcancel : env.cancelOrder o.InstId prev.OrderId
        · rw [if_pos hcancel]
          rcases hplace [GatewayCall.getPosition o.InstId,
              GatewayCall.cancelOrder o.InstId prev.OrderId] with h | ⟨so, h⟩
          · exact Or.inl h
          · exact Or.inr (Or.inr ⟨process, so, rfl, hex, h⟩)
        · rw [if_neg hcancel]
          exact Or.inl rfl
    · rw [if_neg hbuy]
      by_cases hsell : o.Status = "filled" ∧ o.Side = "sell"
      · rw [if_pos hsell]
        exact Or.inr (Or.inl rfl)
      · rw [if_neg hsell]
        exact Or.inl rfl
  · rw [if_neg hex]
    exact Or.inl rfl

/-- A bot state is well formed when every process that records a sell order
has a non-empty buy-order list.  `NewBot` creates every process without a
sell order, and the handler only installs one after `OrderWithIdExists`
succeeded, so every reachable state is well formed. -/
def Inv (b : BotState) : Prop :=
  ∀ sym tp, mapLookup b.tradingProcesses sym = some tp →
    tp.SellOrder ≠ none → tp.BuyOrders ≠ []

theorem inv_step (env : Env) (b : BotState) (o : Order) (h : Inv b) :
    Inv (handleSingleOrderUpdate env b o) := by
  rcases handleSingleOrderUpdate_cases env b o with heq | heq | ⟨process, so, hproc, hex, heq⟩
  · rw [heq]; exact h
  · rw [heq]
    intro sym tp hl hne
    by_cases hx : sym = o.InstId
    · rw [hx] at hl
      rw [mapLookup_mapErase_self] at hl
      cases hl
    · rw [mapLookup_mapErase_ne _ _ _ hx] at hl
      exact h sym tp hl hne
  · rw [heq]
    intro sym tp hl hne
    by_cases hx : sym = o.InstId
    · rw [hx] at hl
      rw [mapLookup_mapSet_self] at hl
      cases hl
      exact buyOrders_ne_nil_of_orderWithIdExists process o.OrderId hex
    · rw [mapLookup_mapSet_ne _ _ _ _ hx] at hl
      exact h sym tp hl hne

theorem inv_fold (env : Env) (events : List Order) (b : BotState) (h : Inv b) :
    Inv (events.foldl (handleSingleOrderUpdate env) b) := by
  induction events generalizing b with
  | nil => exact h
  | cons e es ih => exact ih _ (inv_step env b e h)

/-- An event for a symbol absent from the map is dropped unchanged. -/
theorem handle_absent (env : Env) (b : BotState) (o : Order)
    (h : mapLookup b.tradingProcesses o.InstId = none) :
    handleSingleOrderUpdate env b o = b := by
  unfold handleSingleOrderUpdate handleSingleOrderUpdateT
  rw [h]

/-- The handler never (re-)inserts an absent symbol. -/
theorem absent_step (env : Env) (b : BotState) (o : Order) (X : String)
    (h : mapLookup b.tradingProcesses X = none) :
    mapLookup (handleSingleOrderUpdate env b o).tradingProcesses X = none := by
  rcases handleSingleOrderUpdate_cases env b o with heq | heq | ⟨process, so, hproc, hex, heq⟩
  · rw [heq]; exact h
  · rw [heq]
    by_cases hx : X = o.InstId
    · rw [hx]; exact mapLookup_mapErase_self _ _
    · rw [mapLookup_mapErase_ne _ _ _ hx]; exact h
  · rw [heq]
    by_cases hx : X = o.InstId
    · rw [hx] at h
      rw [h] at hproc
      cases hproc
    · rw [mapLookup_mapSet_ne _ _ _ _ hx]; exact h

theorem absent_fold (env : Env) (events : List Order) (b : BotState) (X : String)
    (h : mapLookup b.tradingProcesses X = none) :
    mapLookup (events.foldl (handleSingleOrderUpdate env) b).tradingProcesses X = none := by
  induction events generalizing b with
  | nil => exact h
  | cons e es ih => exact ih _ (absent_step env b e X h)

/-- Successful tail of the buy-fill branch: with both parses and the
placement succeeding, the new sell order is stored and the placement call is
appended to the trace. -/
theorem handleBuyFillPlacement_success (env : Env) (b : BotState) (o : Order)
    (process : TradingProcess) (position : Position) (avg size : ℚ) (sid : String)
    (calls : List GatewayCall)
    (havg : env.parseFloat position.OpenPriceAvg = some avg)
    (hsize : env.parseFloat position.Total = some size)
    (hplace : env.placeLimitOrder o.InstId "sell"
      (avg * (1 + process.SellTargetPercent / 100)) size = some sid) :
    handleBuyFillPlacement env b o process position calls =
      ({ tradingProcesses := mapSet b.tradingProcesses o.InstId
          ({ process with
              SellOrder := some ⟨sid, avg * (1 + process.SellTargetPercent / 100), size⟩ }) },
       calls ++ [GatewayCall.placeLimitOrder o.InstId "sell"
          (avg * (1 + process.SellTargetPercent / 100)) size]) := by
  unfold handleBuyFillPlacement
  rw [havg]
  simp only
  rw [hsize]
  simp only
  rw [hplace]

/-- Full characterization of a successful buy-fill handling step: position
fetched, any previous sell order cancelled first, then the sell order placed
at `avg * (1 + SellTargetPercent / 100)` for the reported total `size`, and
the new sell order stored on the process. -/
theorem handle_buy_fill_success (env : Env) (b : BotState) (o : Order)
    (process : TradingProcess) (position : Position) (p avg size : ℚ) (sid : String)
    (hproc : mapLookup b.tradingProcesses o.InstId = some process)
    (hp : env.parseFloat o.Price = some p)
    (hex : process.OrderWithIdExists o.OrderId = true)
    (hst : o.Status = "filled") (hsd : o.Side = "buy")
    (hpos : env.getPosition o.InstId = some position)
    (hcancel : ∀ prev, process.SellOrder = some prev →
      env.cancelOrder o.InstId prev.OrderId = true)
    (havg : env.parseFloat position.OpenPriceAvg = some avg)
    (hsize : env.parseFloat position.Total = some size)
    (hplace : env.placeLimitOrder o.InstId "sell"
      (avg * (1 + process.SellTargetPercent / 100)) size = some sid) :
    handleSingleOrderUpdateT env b o =
      ({ tradingProcesses := mapSet b.tradingProcesses o.InstId
          ({ process with
              SellOrder := some ⟨sid, avg * (1 + process.SellTargetPercent / 100), size⟩ }) },
       (match process.SellOrder with
        | some prev => [GatewayCall.getPosition o.InstId,
            GatewayCall.cancelOrder o.InstId prev.OrderId]
        | none => [GatewayCall.getPosition o.InstId]) ++
         [GatewayCall.placeLimitOrder o.InstId "sell"
            (avg * (1 + process.SellTargetPercent / 100)) size]) := by
  unfold handleSingleOrderUpdateT
  rw [hproc]
  simp only
  rw [hp]
  simp only
  rw [if_pos hex, if_pos ⟨hst, hsd⟩, hpos]
  simp only
  rcases hprev : process.SellOrder with _ | prev
  · simp only
    exact handleBuyFillPlacement_success env b o process position avg size sid _
      havg hsize hplace
  · simp only
    rw [if_pos (hcancel prev hprev)]
    exact handleBuyFillPlacement_success env b o process position avg size sid _
      havg hsize hplace

/-- A recognized sell-side fill erases the event's symbol from the map and
issues no gateway call. -/
theorem sell_fill_erases (env : Env) (b : BotState) (o : Order)
    (tp : TradingProcess) (so : SellOrder)
    (hproc : mapLookup b.tradingProcesses o.InstId = some tp)
    (hso : tp.SellOrder = some so) (hne : tp.BuyOrders ≠ [])
    (hid : o.OrderId = so.OrderId)
    (hst : o.Status = "filled") (hsd : o.Side = "sell")
    (hp : (env.parseFloat o.Price).isSome = true) :
    handleSingleOrderUpdateT env b o =
      ({ tradingProcesses := mapErase b.tradingProcesses o.InstId }, []) := by
  have hex : tp.OrderWithIdExists o.OrderId = true := by
    rw [hid]
    exact orderWithIdExists_of_sellMatch tp so hne hso
  unfold handleSingleOrderUpdateT
  rcases hpp : env.parseFloat o.Price with _ | p
  · rw [hpp] at hp
    simp at hp
  · rw [hproc]
    simp only
    rw [if_pos hex]
    rw [if_neg (by rw [hst, hsd]; decide)]
    rw [if_pos ⟨hst, hsd⟩]

/-- Failing tail of the buy-fill branch: when the sell placement fails, the
bot state is returned unchanged. -/
theorem handleBuyFillPlacement_failure (env : Env) (b : BotState) (o : Order)
    (process : TradingProcess) (position : Position) (avg size : ℚ)
    (calls : List GatewayCall)
    (havg : env.parseFloat position.OpenPriceAvg = some avg)
    (hsize : env.parseFloat position.Total = some size)
    (hplace : env.placeLimitOrder o.InstId "sell"
      (avg * (1 + process.SellTargetPercent / 100)) size = none) :
    (handleBuyFillPlacement env b o process position calls).1 = b := by
  unfold handleBuyFillPlacement
  rw [havg]
  simp only
  rw [hsize]
  simp only
  rw [hplace]

/-! ### Concrete fixtures used by witnesses and counterexamples -/

/-- A gateway environment where every call succeeds: prices `"39800"` and
`"2"` parse, the position reports average entry price 39800 and total 2,
cancellation succeeds, and placement returns order id `"s1"`. -/
def envOk : Env :=
  ⟨fun s => if s = "39800" then some 39800 else if s = "2" then some 2 else none,
   fun _ => some ⟨"39800", "2"⟩,
   fun _ _ => true,
   fun _ _ _ _ => some "s1"⟩

/-- A configured buy level whose order has been placed as `"b1"`. -/
def buyLevel : BuyOrder := ⟨"b1", 39800, 50⟩

/-- A fresh trading process for `"SBTCSUSDT"`: sell target 0.8 percent, one
placed buy level, no sell order yet. -/
def procA : TradingProcess := ⟨"SBTCSUSDT", 4/5, [buyLevel], none⟩

/-- Bot tracking only `procA`. -/
def botA : BotState := ⟨[("SBTCSUSDT", procA)]⟩

/-- A buy-side fill event for the placed buy order `"b1"`. -/
def buyFill : Order := ⟨"SBTCSUSDT", "b1", "39800", "filled", "buy"⟩

/-- A sell-side fill event for the sell order `"s1"`. -/
def sellFill : Order := ⟨"SBTCSUSDT", "s1", "39800", "filled", "sell"⟩

/-- The sell order recorded after `buyFill` is handled under `envOk`. -/
def sellAfter : SellOrder := ⟨"s1", 39800 * (1 + (4/5 : ℚ)/100), 2⟩

/-- The state of `procA` after `buyFill` is handled under `envOk`. -/
def procAfter : TradingProcess := ⟨"SBTCSUSDT", 4/5, [buyLevel], some sellAfter⟩

/-- `procA` with an open sell order `"s0"` recorded. -/
def procSell : TradingProcess := ⟨"SBTCSUSDT", 4/5, [buyLevel], some ⟨"s0", 40000, 1⟩⟩

/-- Bot tracking only `procSell`. -/
def botSell : BotState := ⟨[("SBTCSUSDT", procSell)]⟩

/-- `envOk` but the cancel call fails. -/
def envCancelFail : Env :=
  ⟨envOk.parseFloat, envOk.getPosition, fun _ _ => false, envOk.placeLimitOrder⟩

/-- `envOk` but the placement call fails. -/
def envPlaceFail : Env :=
  ⟨envOk.parseFloat, envOk.getPosition, envOk.cancelOrder, fun _ _ _ _ => none⟩

/-! ### The claims -/

/-- C1: an order-update event whose order identifier matches neither any
buy order's assigned identifier nor the current sell order's identifier is
logged and dropped: the handler issues no gateway call and leaves the bot
state — the process's buy orders, its sell order, and its membership in the
`tradingProcesses` map — entirely unchanged. -/
theorem unknown_orderId_leaves_bot_unchanged (env : Env) (b : BotState) (o : Order)
    (process : TradingProcess)
    (hproc : mapLookup b.tradingProcesses o.InstId = some process)
    (hbuy : ∀ bo ∈ process.BuyOrders, bo.OrderId ≠ o.OrderId)
    (hsell : ∀ so, process.SellOrder = some so → so.OrderId ≠ o.OrderId) :
    handleSingleOrderUpdateT env b o = (b, []) := by
  have hex : process.OrderWithIdExists o.OrderId = false := by
    unfold TradingProcess.OrderWithIdExists
    rw [List.any_eq_false]
    intro bo hbo
    rcases hso : process.SellOrder with _ | so
    · simp [beq_eq_false_iff_ne.mpr (hbuy bo hbo)]
    · simp [beq_eq_false_iff_ne.mpr (hbuy bo hbo), beq_eq_false_iff_ne.mpr (hsell so hso)]
  unfold handleSingleOrderUpdateT
  rw [hproc]
  simp only
  rcases env.parseFloat o.Price with _ | p
  · rfl
  · simp only
    rw [if_neg (by simp [hex])]

/-- C1 witness: an event carrying the unknown identifier `"zzz"` is dropped
by the concrete bot. -/
theorem unknown_orderId_leaves_bot_unchanged_witness :
    handleSingleOrderUpdateT envOk botA ⟨"SBTCSUSDT", "zzz", "39800", "filled", "buy"⟩ =
      (botA, []) :=
  unknown_orderId_leaves_bot_unchanged envOk botA
    ⟨"SBTCSUSDT", "zzz", "39800", "filled", "buy"⟩ procA rfl
    (by decide)
    (fun so h => Option.noConfusion h)

/-- C2: after any sequence of order-update events processed from any
starting state, every tracked trading process records at most one sell
order (the tracking field holds a single optional record: a new placement
replaces it and a sell fill removes the whole process). -/
theorem at_most_one_sellOrder_per_process (env : Env) (b : BotState)
    (events : List Order) (sym : String) (tp : TradingProcess)
    (_htp : mapLookup
      (events.foldl (handleSingleOrderUpdate env) b).tradingProcesses sym = some tp) :
    sellOrderCount tp ≤ 1 := by
  rcases h : tp.SellOrder with _ | so <;> simp [sellOrderCount, h]

/-- C2 witness: the process reached after a handled buy fill records
exactly one sell order. -/
theorem at_most_one_sellOrder_per_process_witness :
    sellOrderCount procAfter ≤ 1 :=
  at_most_one_sellOrder_per_process envOk botA [buyFill] "SBTCSUSDT" procAfter rfl

/-- C3: when a buy-fill event is processed while a sell order is already
open, the gateway trace shows the position fetch and then the cancellation
of the old sell order before any placement; if the cancellation fails, the
event's processing is aborted: no placement call is issued, the bot state
is unchanged, and the process still records the old (stale) sell order. -/
theorem cancel_failure_aborts_event (env : Env) (b : BotState) (o : Order)
    (process : TradingProcess) (prev : SellOrder) (p : ℚ) (position : Position)
    (hproc : mapLookup b.tradingProcesses o.InstId = some process)
    (hp : env.parseFloat o.Price = some p)
    (hex : process.OrderWithIdExists o.OrderId = true)
    (hst : o.Status = "filled") (hsd : o.Side = "buy")
    (hpos : env.getPosition o.InstId = some position)
    (hprev : process.SellOrder = some prev)
    (hcancel : env.cancelOrder o.InstId prev.OrderId = false) :
    handleSingleOrderUpdateT env b o =
      (b, [GatewayCall.getPosition o.InstId, GatewayCall.cancelOrder o.InstId prev.OrderId])
    ∧ mapLookup (handleSingleOrderUpdate env b o).tradingProcesses o.InstId = some process := by
  have hT : handleSingleOrderUpdateT env b o =
      (b, [GatewayCall.getPosition o.InstId,
           GatewayCall.cancelOrder o.InstId prev.OrderId]) := by
    unfold handleSingleOrderUpdateT
    rw [hproc]
    simp only
    rw [hp]
    simp only
    rw [if_pos hex, if_pos ⟨hst, hsd⟩, hpos]
    simp only
    rw [hprev]
    simp only
    rw [if_neg (by simp [hcancel])]
  refine ⟨hT, ?_⟩
  unfold handleSingleOrderUpdate
  rw [hT]
  exact hproc

/-- C3 witness: with the concrete bot holding sell order `"s0"` and a
failing cancel call, the buy fill is aborted after the cancel attempt. -/
theorem cancel_failure_aborts_event_witness :
    handleSingleOrderUpdateT envCancelFail botSell buyFill =
      (botSell, [GatewayCall.getPosition "SBTCSUSDT", GatewayCall.cancelOrder "SBTCSUSDT" "s0"])
    ∧ mapLookup (handleSingleOrderUpdate envCancelFail botSell buyFill).tradingProcesses
        "SBTCSUSDT" = some procSell :=
  cancel_failure_aborts_event envCancelFail botSell buyFill procSell ⟨"s0", 40000, 1⟩
    39800 ⟨"39800", "2"⟩ rfl rfl (by decide) rfl rfl rfl rfl rfl

/-- C4 counterexample: the claim says a placement failure leaves NO sell
order recorded.  In the run below the old sell order `"s0"` is cancelled
(see the trace) and the placement then fails, yet the process still records
`"s0"` — the stale record is not cleared. -/
theorem place_failure_keeps_stale_sellOrder :
    (handleSingleOrderUpdateT envPlaceFail botSell buyFill).2 =
      [GatewayCall.getPosition "SBTCSUSDT", GatewayCall.cancelOrder "SBTCSUSDT" "s0",
       GatewayCall.placeLimitOrder "SBTCSUSDT" "sell"
         ((39800 : ℚ) * (1 + (4/5 : ℚ)/100)) 2]
    ∧ (mapLookup (handleSingleOrderUpdate envPlaceFail botSell buyFill).tradingProcesses
        "SBTCSUSDT").map TradingProcess.SellOrder = some (some ⟨"s0", 40000, 1⟩) :=
  ⟨rfl, rfl⟩

/-- C4 amended: if the sell placement fails, the failure is logged and the
event's processing is abandoned with the bot state unchanged — so when a
previously open sell order was cancelled earlier in the same event's
handling, that stale (already cancelled) record is still in place rather
than no record. -/
theorem place_failure_leaves_state_unchanged (env : Env) (b : BotState) (o : Order)
    (process : TradingProcess) (position : Position) (p avg size : ℚ)
    (hproc : mapLookup b.tradingProcesses o.InstId = some process)
    (hp : env.parseFloat o.Price = some p)
    (hex : process.OrderWithIdExists o.OrderId = true)
    (hst : o.Status = "filled") (hsd : o.Side = "buy")
    (hpos : env.getPosition o.InstId = some position)
    (hcancel : ∀ prev, process.SellOrder = some prev →
      env.cancelOrder o.InstId prev.OrderId = true)
    (havg : env.parseFloat position.OpenPriceAvg = some avg)
    (hsize : env.parseFloat position.Total = some size)
    (hplace : env.placeLimitOrder o.InstId "sell"
      (avg * (1 + process.SellTargetPercent / 100)) size = none) :
    handleSingleOrderUpdate env b o = b
    ∧ mapLookup (handleSingleOrderUpdate env b o).tradingProcesses o.InstId = some process := by
  have hT : handleSingleOrderUpdate env b o = b := by
    unfold handleSingleOrderUpdate handleSingleOrderUpdateT
    rw [hproc]
    simp only
    rw [hp]
    simp only
    rw [if_pos hex, if_pos ⟨hst, hsd⟩, hpos]
    simp only
    rcases hprev : process.SellOrder with _ | prev
    · simp only
      exact handleBuyFillPlacement_failure env b o process position avg size _
        havg hsize hplace
    · simp only
      rw [if_pos (hcancel prev hprev)]
      exact handleBuyFillPlacement_failure env b o process position avg size _
        havg hsize hplace
  refine ⟨hT, ?_⟩
  rw [hT]
  exact hproc

/-- C4 amended witness: in the counterexample run the state is exactly
unchanged. -/
theorem place_failure_leaves_state_unchanged_witness :
    handleSingleOrderUpdate envPlaceFail botSell buyFill = botSell
    ∧ mapLookup (handleSingleOrderUpdate envPlaceFail botSell buyFill).tradingProcesses
        "SBTCSUSDT" = some procSell :=
  place_failure_leaves_state_unchanged envPlaceFail botSell buyFill procSell
    ⟨"39800", "2"⟩ 39800 39800 2 rfl rfl (by decide) rfl rfl rfl
    (fun prev h => rfl) rfl rfl rfl

/-- C5: when a buy fill results in a sell order being placed, the size sent
to the gateway — and the size recorded on the process — is exactly the
value parsed from the exchange-reported position total
(`position.Total`), not any locally tracked buy size. -/
theorem sell_size_equals_position_total (env : Env) (b : BotState) (o : Order)
    (process : TradingProcess) (position : Position) (p avg size : ℚ) (sid : String)
    (hproc : mapLookup b.tradingProcesses o.InstId = some process)
    (hp : env.parseFloat o.Price = some p)
    (hex : process.OrderWithIdExists o.OrderId = true)
    (hst : o.Status = "filled") (hsd : o.Side = "buy")
    (hpos : env.getPosition o.InstId = some position)
    (hcancel : ∀ prev, process.SellOrder = some prev →
      env.cancelOrder o.InstId prev.OrderId = true)
    (havg : env.parseFloat position.OpenPriceAvg = some avg)
    (hsize : env.parseFloat position.Total = some size)
    (hplace : env.placeLimitOrder o.InstId "sell"
      (avg * (1 + process.SellTargetPercent / 100)) size = some sid) :
    GatewayCall.placeLimitOrder o.InstId "sell"
        (avg * (1 + process.SellTargetPercent / 100)) size
      ∈ (handleSingleOrderUpdateT env b o).2
    ∧ (mapLookup (handleSingleOrderUpdate env b o).tradingProcesses o.InstId).map
        (fun tp => tp.SellOrder.map SellOrder.OrderAmount) = some (some size) := by
  have h := handle_buy_fill_success env b o process position p avg size sid
    hproc hp hex hst hsd hpos hcancel havg hsize hplace
  constructor
  · rw [h]
    simp
  · unfold handleSingleOrderUpdate
    rw [h]
    simp only
    rw [mapLookup_mapSet_self]
    rfl

/-- C5 witness: the concrete run places and records a sell of size 2, the
parsed position total. -/
theorem sell_size_equals_position_total_witness :
    GatewayCall.placeLimitOrder "SBTCSUSDT" "sell"
        ((39800 : ℚ) * (1 + (4/5 : ℚ)/100)) 2
      ∈ (handleSingleOrderUpdateT envOk botA buyFill).2
    ∧ (mapLookup (handleSingleOrderUpdate envOk botA buyFill).tradingProcesses
        "SBTCSUSDT").map (fun tp => tp.SellOrder.map SellOrder.OrderAmount) =
      some (some 2) :=
  sell_size_equals_position_total envOk botA buyFill procA ⟨"39800", "2"⟩
    39800 39800 2 "s1" rfl rfl (by decide) rfl rfl rfl
    (fun prev h => Option.noConfusion h) rfl rfl rfl

/-- C6: when a buy fill results in a sell order being placed, the recorded
sell price is `avg * (1 + SellTargetPercent / 100)`; in particular for
average entry price 39800 and sell-target-percent 0.8 the price is
40118.40, which is already at the one-decimal precision the client sends
to the exchange. -/
theorem sell_price_formula_and_example (env : Env) (b : BotState) (o : Order)
    (process : TradingProcess) (position : Position) (p avg size : ℚ) (sid : String)
    (hproc : mapLookup b.tradingProcesses o.InstId = some process)
    (hp : env.parseFloat o.Price = some p)
    (hex : process.OrderWithIdExists o.OrderId = true)
    (hst : o.Status = "filled") (hsd : o.Side = "buy")
    (hpos : env.getPosition o.InstId = some position)
    (hcancel : ∀ prev, process.SellOrder = some prev →
      env.cancelOrder o.InstId prev.OrderId = true)
    (havg : env.parseFloat position.OpenPriceAvg = some avg)
    (hsize : env.parseFloat position.Total = some size)
    (hplace : env.placeLimitOrder o.InstId "sell"
      (avg * (1 + process.SellTargetPercent / 100)) size = some sid) :
    (mapLookup (handleSingleOrderUpdate env b o).tradingProcesses o.InstId).map
        (fun tp => tp.SellOrder.map SellOrder.CoinPrice) =
      some (some (avg * (1 + process.SellTargetPercent / 100)))
    ∧ (avg = 39800 → process.SellTargetPercent = 4/5 →
        avg * (1 + process.SellTargetPercent / 100) = 401184/10
        ∧ formatPriceDec1 (401184/10) = 401184/10) := by
  have h := handle_buy_fill_success env b o process position p avg size sid
    hproc hp hex hst hsd hpos hcancel havg hsize hplace
  constructor
  · unfold handleSingleOrderUpdate
    rw [h]
    simp only
    rw [mapLookup_mapSet_self]
    rfl
  · intro h1 h2
    rw [h1, h2]
    constructor
    · norm_num
    · unfold formatPriceDec1
      have h3 : ((401184 : ℚ)/10) * 10 = ((401184 : ℤ) : ℚ) := by norm_num
      rw [h3, round_intCast]
      norm_num

/-- C6 witness: on the concrete run the recorded price is
39800 × 1.008 = 40118.4, already at one-decimal precision. -/
theorem sell_price_formula_and_example_witness :
    (mapLookup (handleSingleOrderUpdate envOk botA buyFill).tradingProcesses
        "SBTCSUSDT").map (fun tp => tp.SellOrder.map SellOrder.CoinPrice) =
      some (some ((39800 : ℚ) * (1 + (4/5 : ℚ)/100)))
    ∧ ((39800 : ℚ) * (1 + (4/5 : ℚ)/100) = 401184/10
        ∧ formatPriceDec1 (401184/10) = 401184/10) := by
  have h := sell_price_formula_and_example envOk botA buyFill procA ⟨"39800", "2"⟩
    39800 39800 2 "s1" rfl rfl (by decide) rfl rfl rfl
    (fun prev h => Option.noConfusion h) rfl rfl rfl
  exact ⟨h.1, h.2 rfl rfl⟩

/-- C7: in any run that starts (as `NewBot` does) with no process holding a
sell order, a sell-side fill whose identifier matches the current sell
order of its symbol's process removes that process from the
`tradingProcesses` map entirely, and every subsequent order-update event
referencing that symbol — whatever identifier it carries — is discarded as
unknown without any state mutation. -/
theorem sell_fill_removes_process_and_later_events_dropped
    (env : Env) (b0 : BotState)
    (h0 : ∀ sym tp, mapLookup b0.tradingProcesses sym = some tp → tp.SellOrder = none)
    (events : List Order) (o : Order) (tp : TradingProcess) (so : SellOrder)
    (hproc : mapLookup
      (events.foldl (handleSingleOrderUpdate env) b0).tradingProcesses o.InstId = some tp)
    (hso : tp.SellOrder = some so) (hid : o.OrderId = so.OrderId)
    (hst : o.Status = "filled") (hsd : o.Side = "sell")
    (hp : (env.parseFloat o.Price).isSome = true) :
    mapLookup (handleSingleOrderUpdate env
        (events.foldl (handleSingleOrderUpdate env) b0) o).tradingProcesses o.InstId = none
    ∧ ∀ (later : List Order) (o2 : Order), o2.InstId = o.InstId →
        handleSingleOrderUpdate env
            (later.foldl (handleSingleOrderUpdate env)
              (handleSingleOrderUpdate env
                (events.foldl (handleSingleOrderUpdate env) b0) o)) o2
          = later.foldl (handleSingleOrderUpdate env)
              (handleSingleOrderUpdate env
                (events.foldl (handleSingleOrderUpdate env) b0) o) := by
  have hinv : Inv (events.foldl (handleSingleOrderUpdate env) b0) :=
    inv_fold env events b0 (fun sym tp' h hne => absurd (h0 sym tp' h) hne)
  have hne : tp.BuyOrders ≠ [] :=
    hinv o.InstId tp hproc (by rw [hso]; exact fun hc => Option.noConfusion hc)
  have herase := sell_fill_erases env _ o tp so hproc hso hne hid hst hsd hp
  have habs : mapLookup (handleSingleOrderUpdate env
      (events.foldl (handleSingleOrderUpdate env) b0) o).tradingProcesses o.InstId = none := by
    rw [handleSingleOrderUpdate_eq_fst, herase]
    exact mapLookup_mapErase_self _ _
  refine ⟨habs, ?_⟩
  intro later o2 ho2
  have habs2 : mapLookup (later.foldl (handleSingleOrderUpdate env)
      (handleSingleOrderUpdate env
        (events.foldl (handleSingleOrderUpdate env) b0) o)).tradingProcesses o.InstId = none :=
    absent_fold env later _ o.InstId habs
  refine handle_absent env _ o2 ?_
  rw [ho2]
  exact habs2

/-- C7 witness: after the concrete buy fill and the matching sell fill, the
symbol is gone from the map, and handling a further event for its former
buy-order identifier changes nothing. -/
theorem sell_fill_removes_process_and_later_events_dropped_witness :
    mapLookup (handleSingleOrderUpdate envOk
        (List.foldl (handleSingleOrderUpdate envOk) botA [buyFill])
        sellFill).tradingProcesses "SBTCSUSDT" = none
    ∧ handleSingleOrderUpdate envOk
        (List.foldl (handleSingleOrderUpdate envOk)
          (handleSingleOrderUpdate envOk
            (List.foldl (handleSingleOrderUpdate envOk) botA [buyFill]) sellFill) [])
        buyFill
      = List.foldl (handleSingleOrderUpdate envOk)
          (handleSingleOrderUpdate envOk
            (List.foldl (handleSingleOrderUpdate envOk) botA [buyFill]) sellFill) [] := by
  have h := sell_fill_removes_process_and_later_events_dropped envOk botA
    (by
      intro sym tp h
      simp only [botA, mapLookup] at h
      split at h
      · cases h
        rfl
      · cases h)
    [buyFill] sellFill procAfter sellAfter rfl rfl rfl rfl rfl rfl
  exact ⟨h.1, h.2 [] buyFill rfl⟩

/-- C8: the in-flight guard of `reconnect` is read outside the mutex, so
two concurrent callers that both execute the `if c.reconnectInProgress`
check (line 230) before either performs the guarded store (lines 235-237)
BOTH enter the reconnection body: the schedule below leaves two callers in
flight, violating the at-most-one-reconnection guarantee the guard is meant
to provide. -/
theorem guard_race_admits_two_inflight_reconnects :
    inBodyCount (guardRun
      ⟨false, [ReconnectPc.notStarted, ReconnectPc.notStarted]⟩ [0, 1, 0, 1]) = 2 := by
  decide

/-- C9 counterexample: `Close` on a fresh session succeeds, but calling
`Close` again on the resulting session panics (Go's `close(c.done)` on an
already-closed channel), refuting idempotency. -/
theorem double_close_panics :
    WebsocketClient.Close ⟨true, false, true, false, false⟩ =
      Except.ok (⟨true, true, false, true, false⟩, false)
    ∧ WebsocketClient.Close ⟨true, true, false, true, false⟩ = Except.error () :=
  ⟨rfl, rfl⟩

/-- C9 amended: the first `Close` terminates monitoring (closes the `done`
channel) and closes the transport, but `Close` is NOT idempotent: a second
`Close` always panics when it closes the already-closed `done` channel. -/
theorem close_not_idempotent_behavior (c : WebsocketClient)
    (h : c.doneClosed = false) :
    ∃ c2 e2, WebsocketClient.Close c = Except.ok (c2, e2)
      ∧ c2.doneClosed = true
      ∧ (c.connPresent = true → c2.isConnected = false ∧ c2.connClosed = true)
      ∧ WebsocketClient.Close c2 = Except.error () := by
  by_cases hc : c.connPresent = true
  · refine ⟨{ c with doneClosed := true, isConnected := false, connClosed := true },
      c.connClosed, ?_, rfl, fun _ => ⟨rfl, rfl⟩, ?_⟩
    · simp [WebsocketClient.Close, closeConnection, h, hc]
    · simp [WebsocketClient.Close]
  · refine ⟨{ c with doneClosed := true }, false, ?_, rfl, fun hcp => absurd hcp hc, ?_⟩
    · simp [WebsocketClient.Close, closeConnection, h, hc]
    · simp [WebsocketClient.Close]

/-- C9 amended witness: the behavior at a fresh open session. -/
theorem close_not_idempotent_behavior_witness :
    ∃ c2 e2, WebsocketClient.Close ⟨true, false, true, false, false⟩ = Except.ok (c2, e2)
      ∧ c2.doneClosed = true
      ∧ ((true : Bool) = true → c2.isConnected = false ∧ c2.connClosed = true)
      ∧ WebsocketClient.Close c2 = Except.error () :=
  close_not_idempotent_behavior ⟨true, false, true, false, false⟩ rfl

/-- C10: `placeBuyOrders` does NOT preserve an already-assigned buy-order
identifier: invoked on a process whose buy order already carries id `"A"`
(it merely logs "already placed"), with the exchange returning id `"B"`,
it places the order again and overwrites `"A"` with `"B"`. -/
theorem placeBuyOrders_reassigns_assigned_orderId :
    (placeBuyOrders ⟨fun _ => none, fun _ => none, fun _ _ => false, fun _ _ _ _ => some "B"⟩
        "SBTCSUSDT" ⟨"SBTCSUSDT", 4/5, [⟨"A", 100, 10⟩], none⟩).1.BuyOrders =
      [⟨"B", 100, 10⟩]
    ∧ (placeBuyOrders ⟨fun _ => none, fun _ => none, fun _ _ => false, fun _ _ _ _ => some "B"⟩
        "SBTCSUSDT" ⟨"SBTCSUSDT", 4/5, [⟨"A", 100, 10⟩], none⟩).2 = true :=
  ⟨rfl, rfl⟩

end Botcoin
